import Mathlib

/-!
Verification of the client-side aggregation and fetch-coordination logic of
the expense-tracker application.  The definitions below are a shallow
embedding of `src/src/components/Reports.jsx` (summary, pie/bar chart
aggregation, debounced fetch coordination) and of the summary computation in
`src/src/App.jsx`; the theorems settle the specification claims about them.
-/

/-- JavaScript numeric values as they occur in the aggregation code: either an
actual (rational) value or NaN, which is what `parseFloat` yields on
non-numeric input and which propagates through arithmetic. -/
inductive JsNum where
  | num (q : ℚ)
  | nan
deriving DecidableEq

/-- JS addition; NaN propagates. -/
def JsNum.add : JsNum → JsNum → JsNum
  | .num a, .num b => .num (a + b)
  | _, _ => .nan

/-- JS subtraction; NaN propagates. -/
def JsNum.sub : JsNum → JsNum → JsNum
  | .num a, .num b => .num (a - b)
  | _, _ => .nan

/-- JS multiplication; NaN propagates. -/
def JsNum.mul : JsNum → JsNum → JsNum
  | .num a, .num b => .num (a * b)
  | _, _ => .nan

/-- JS division as used by the summary code.  Both division sites in the
source are guarded (`income > 0` resp. `expense > 0`), so the divisor is a
positive number whenever the division is evaluated; the unreachable `b = 0`
branch is mapped to NaN. -/
def JsNum.div : JsNum → JsNum → JsNum
  | .num a, .num b => if b = 0 then .nan else .num (a / b)
  | _, _ => .nan

/-- The JS comparison `x > 0`; false when `x` is NaN. -/
def JsNum.gtZero : JsNum → Bool
  | .num q => decide (0 < q)
  | .nan => false

/-- The JS comparison `x > y`; false when either side is NaN. -/
def JsNum.gtB : JsNum → JsNum → Bool
  | .num a, .num b => decide (b < a)
  | _, _ => false

/-- `Math.abs`; NaN propagates. -/
def JsNum.abs : JsNum → JsNum
  | .num q => .num |q|
  | .nan => .nan

/-- `parseFloat(transaction.amount)`: the stored amount is modelled as
`some q` when `parseFloat` parses it to the number `q`, and as `none` when it
is non-numeric (`parseFloat` yields NaN). -/
def parseFloat : Option ℚ → JsNum
  | some q => .num q
  | none => .nan

/-- The category record joined onto a transaction
(`select('*, categories(name, color)')`).  A `none` name/color models a
null (JS-falsy) joined field, for which the code substitutes the literal
`'Uncategorized'` resp. a hash-based fallback color. -/
structure Category where
  name : Option String
  color : Option String
deriving DecidableEq

/-- A transaction row as consumed by the aggregation code.  `categories` is
`none` when the row has no joined category record at all. -/
structure Transaction where
  type : String
  amount : Option ℚ
  categories : Option Category
deriving DecidableEq

/-- Accumulator of the `transactions.forEach` loop in `calculateSummary`
(Reports.jsx lines 195-206). -/
structure SummaryAcc where
  income : JsNum
  expense : JsNum
  incomeCount : ℕ
  expenseCount : ℕ
deriving DecidableEq

/-- The record returned by `calculateSummary` (Reports.jsx lines 208-216).
`ratio` holds the unformatted quotient (the source formats it with
`toFixed(2)`); `none` is the `'∞'` sentinel used when `expense > 0` fails. -/
structure Summary where
  income : JsNum
  expense : JsNum
  total : JsNum
  incomeCount : ℕ
  expenseCount : ℕ
  savingsRate : JsNum
  ratio : Option JsNum
deriving DecidableEq

/-- One iteration of the `forEach` in `calculateSummary`: amounts are
partitioned by `transaction.type === 'income'`. -/
def summaryStep (acc : SummaryAcc) (t : Transaction) : SummaryAcc :=
  if t.type = "income" then
    { acc with income := acc.income.add (parseFloat t.amount),
               incomeCount := acc.incomeCount + 1 }
  else
    { acc with expense := acc.expense.add (parseFloat t.amount),
               expenseCount := acc.expenseCount + 1 }

/-- `calculateSummary` of Reports.jsx (lines 194-217). -/
def calculateSummary (ts : List Transaction) : Summary :=
  let a := ts.foldl summaryStep ⟨.num 0, .num 0, 0, 0⟩
  { income := a.income
    expense := a.expense
    total := a.income.sub a.expense
    incomeCount := a.incomeCount
    expenseCount := a.expenseCount
    savingsRate :=
      if a.income.gtZero then ((a.income.sub a.expense).div a.income).mul (.num 100)
      else .num 0
    ratio := if a.expense.gtZero then some (a.income.div a.expense) else none }

/-- One iteration of the `forEach` in App.jsx's `calculateSummary`
(lines 71-74): the same binary partition on `t.type === 'income'`, tracking
only the two totals. -/
def appSummaryStep (acc : JsNum × JsNum) (t : Transaction) : JsNum × JsNum :=
  if t.type = "income" then (acc.1.add (parseFloat t.amount), acc.2)
  else (acc.1, acc.2.add (parseFloat t.amount))

/-- `calculateSummary` of App.jsx (lines 56-87): returns
(income, expense, total = income − expense). -/
def appCalculateSummary (ts : List Transaction) : JsNum × JsNum × JsNum :=
  let a := ts.foldl appSummaryStep (.num 0, .num 0)
  (a.1, a.2, a.1.sub a.2)

/-- Folding JS `+=` of parsed amounts over a transaction list, starting from
an accumulated value. -/
def jsAmountFold (a : JsNum) (ts : List Transaction) : JsNum :=
  ts.foldl (fun x t => x.add (parseFloat t.amount)) a

theorem jsZero_add (a : JsNum) : (JsNum.num 0).add a = a := by
  cases a <;> simp [JsNum.add]

theorem jsAdd_zero (a : JsNum) : a.add (JsNum.num 0) = a := by
  cases a <;> simp [JsNum.add]

theorem jsAdd_nan_left (a : JsNum) : (JsNum.nan).add a = JsNum.nan := by
  cases a <;> rfl

theorem jsAdd_nan_right (a : JsNum) : a.add JsNum.nan = JsNum.nan := by
  cases a <;> rfl

theorem jsAdd_assoc (a b c : JsNum) : (a.add b).add c = a.add (b.add c) := by
  cases a <;> cases b <;> cases c <;> simp [JsNum.add, add_assoc]

theorem jsAdd_comm (a b : JsNum) : a.add b = b.add a := by
  cases a <;> cases b <;> simp [JsNum.add, add_comm]

theorem jsAdd_right_comm (a b c : JsNum) : (a.add b).add c = (a.add c).add b := by
  cases a <;> cases b <;> cases c <;> simp [JsNum.add, add_right_comm]

theorem jsAdd_left_comm (a b c : JsNum) : a.add (b.add c) = b.add (a.add c) := by
  cases a <;> cases b <;> cases c <;> simp [JsNum.add, add_left_comm]

theorem jsAmountFold_nil (a : JsNum) : jsAmountFold a [] = a := rfl

theorem jsAmountFold_cons (a : JsNum) (t : Transaction) (ts : List Transaction) :
    jsAmountFold a (t :: ts) = jsAmountFold (a.add (parseFloat t.amount)) ts := rfl

theorem jsAmountFold_nan (ts : List Transaction) : jsAmountFold JsNum.nan ts = JsNum.nan := by
  induction ts with
  | nil => rfl
  | cons t ts ih => rw [jsAmountFold_cons, jsAdd_nan_left, ih]

/-- If some member of the list has a non-numeric amount, the accumulated sum
is NaN regardless of the other entries. -/
theorem jsAmountFold_of_none (ts : List Transaction) (a : JsNum) (t : Transaction)
    (ht : t ∈ ts) (ha : t.amount = none) : jsAmountFold a ts = JsNum.nan := by
  induction ts generalizing a with
  | nil => cases ht
  | cons hd tl ih =>
    rcases List.mem_cons.mp ht with rfl | hm
    · rw [jsAmountFold_cons, ha]
      rw [show parseFloat none = JsNum.nan from rfl, jsAdd_nan_right, jsAmountFold_nan]
    · rw [jsAmountFold_cons]
      exact ih _ hm

/-- If every amount in the list is numeric, the accumulated sum starting from
a number is a number. -/
theorem jsAmountFold_num (ts : List Transaction) (a : ℚ)
    (h : ∀ t ∈ ts, ∃ q : ℚ, t.amount = some q) :
    ∃ r : ℚ, jsAmountFold (.num a) ts = .num r := by
  induction ts generalizing a with
  | nil => exact ⟨a, rfl⟩
  | cons hd tl ih =>
    obtain ⟨q, hq⟩ := h hd (List.mem_cons_self hd tl)
    rw [jsAmountFold_cons, hq]
    exact ih (a + q) fun t ht => h t (List.mem_cons_of_mem hd ht)

theorem foldl_summaryStep_income (ts : List Transaction) (acc : SummaryAcc) :
    (ts.foldl summaryStep acc).income
      = jsAmountFold acc.income (ts.filter fun t => t.type == "income") := by
  induction ts generalizing acc with
  | nil => rfl
  | cons t ts ih =>
    by_cases h : t.type = "income" <;>
      simp [summaryStep, h, ih, List.filter_cons, jsAmountFold_cons]

theorem foldl_summaryStep_expense (ts : List Transaction) (acc : SummaryAcc) :
    (ts.foldl summaryStep acc).expense
      = jsAmountFold acc.expense (ts.filter fun t => !(t.type == "income")) := by
  induction ts generalizing acc with
  | nil => rfl
  | cons t ts ih =>
    by_cases h : t.type = "income" <;>
      simp [summaryStep, h, ih, List.filter_cons, jsAmountFold_cons]

theorem foldl_summaryStep_incomeCount (ts : List Transaction) (acc : SummaryAcc) :
    (ts.foldl summaryStep acc).incomeCount
      = acc.incomeCount + (ts.filter fun t => t.type == "income").length := by
  induction ts generalizing acc with
  | nil => simp
  | cons t ts ih =>
    by_cases h : t.type = "income" <;>
      (simp [summaryStep, h, ih, List.filter_cons]; try omega)

theorem foldl_summaryStep_expenseCount (ts : List Transaction) (acc : SummaryAcc) :
    (ts.foldl summaryStep acc).expenseCount
      = acc.expenseCount + (ts.filter fun t => !(t.type == "income")).length := by
  induction ts generalizing acc with
  | nil => simp
  | cons t ts ih =>
    by_cases h : t.type = "income" <;>
      (simp [summaryStep, h, ih, List.filter_cons]; try omega)

theorem foldl_summaryStep_counts_total (ts : List Transaction) (acc : SummaryAcc) :
    (ts.foldl summaryStep acc).incomeCount + (ts.foldl summaryStep acc).expenseCount
      = acc.incomeCount + acc.expenseCount + ts.length := by
  induction ts generalizing acc with
  | nil => simp
  | cons t ts ih =>
    by_cases h : t.type = "income" <;>
      (simp [summaryStep, h, ih]; try omega)

theorem foldl_appSummaryStep_eq (ts : List Transaction) (i e : JsNum) (ic ec : ℕ) :
    ts.foldl appSummaryStep (i, e)
      = ((ts.foldl summaryStep ⟨i, e, ic, ec⟩).income,
         (ts.foldl summaryStep ⟨i, e, ic, ec⟩).expense) := by
  induction ts generalizing i e ic ec with
  | nil => rfl
  | cons t ts ih =>
    by_cases h : t.type = "income"
    · simp only [List.foldl_cons, summaryStep, appSummaryStep, h, if_true]
      exact ih _ _ _ _
    · simp only [List.foldl_cons, summaryStep, appSummaryStep, h, if_false]
      exact ih _ _ _ _

/-- Claim C10: `calculateSummary` partitions transactions by the binary test
`type === 'income'`: income total/count accumulate exactly the transactions
whose type is the string "income", every other transaction (unknown or
malformed types included) accumulates into the expense total/count, the two
counts exhaust the list, and App.jsx's `calculateSummary` computes the same
income/expense/total partition. -/
theorem C10_binary_partition (ts : List Transaction) :
    (calculateSummary ts).incomeCount = (ts.filter fun t => t.type == "income").length
    ∧ (calculateSummary ts).expenseCount = (ts.filter fun t => !(t.type == "income")).length
    ∧ (calculateSummary ts).incomeCount + (calculateSummary ts).expenseCount = ts.length
    ∧ (calculateSummary ts).income
        = jsAmountFold (.num 0) (ts.filter fun t => t.type == "income")
    ∧ (calculateSummary ts).expense
        = jsAmountFold (.num 0) (ts.filter fun t => !(t.type == "income"))
    ∧ appCalculateSummary ts
        = ((calculateSummary ts).income, (calculateSummary ts).expense,
           (calculateSummary ts).total) := by
  refine ⟨?_, ?_, ?_, ?_, ?_, ?_⟩
  · simpa using foldl_summaryStep_incomeCount ts ⟨.num 0, .num 0, 0, 0⟩
  · simpa using foldl_summaryStep_expenseCount ts ⟨.num 0, .num 0, 0, 0⟩
  · simpa using foldl_summaryStep_counts_total ts ⟨.num 0, .num 0, 0, 0⟩
  · exact foldl_summaryStep_income ts ⟨.num 0, .num 0, 0, 0⟩
  · exact foldl_summaryStep_expense ts ⟨.num 0, .num 0, 0, 0⟩
  · show (let a := ts.foldl appSummaryStep (.num 0, .num 0); (a.1, a.2, a.1.sub a.2)) = _
    rw [show ((.num 0, .num 0) : JsNum × JsNum)
          = (SummaryAcc.income ⟨.num 0, .num 0, 0, 0⟩,
             SummaryAcc.expense ⟨.num 0, .num 0, 0, 0⟩) from rfl,
        foldl_appSummaryStep_eq ts _ _ 0 0]
    rfl

/-- Claim C1 fails on the code: a transaction whose amount is non-numeric
does not contribute zero — `parseFloat` yields NaN, which poisons the income
(here) total, so the summary differs from the one where that amount is 0. -/
theorem C1_counterexample :
    ¬ ((calculateSummary [{ type := "income", amount := none, categories := none }]).income
         = (calculateSummary [{ type := "income", amount := some 0, categories := none }]).income
       ∧ (calculateSummary [{ type := "income", amount := none, categories := none }]).expense
         = (calculateSummary [{ type := "income", amount := some 0, categories := none }]).expense
       ∧ (calculateSummary [{ type := "income", amount := none, categories := none }]).total
         = (calculateSummary [{ type := "income", amount := some 0, categories := none }]).total) := by
  decide

/-- Claim C1 (amended): the summary computation is total (it cannot raise),
but a transaction with a non-numeric amount contributes NaN rather than zero:
NaN propagates into the income total (if its type is "income") or the expense
total (otherwise).  The transaction is still counted: the two counts always
exhaust the list. -/
theorem C1_amended (ts : List Transaction) (t : Transaction)
    (ht : t ∈ ts) (ha : t.amount = none) :
    (t.type = "income" → (calculateSummary ts).income = JsNum.nan)
    ∧ (¬ t.type = "income" → (calculateSummary ts).expense = JsNum.nan)
    ∧ (calculateSummary ts).incomeCount + (calculateSummary ts).expenseCount = ts.length := by
  refine ⟨fun h => ?_, fun h => ?_, ?_⟩
  · rw [show (calculateSummary ts).income
        = (ts.foldl summaryStep ⟨.num 0, .num 0, 0, 0⟩).income from rfl,
      foldl_summaryStep_income]
    exact jsAmountFold_of_none _ _ t (List.mem_filter.mpr ⟨ht, by simp [h]⟩) ha
  · rw [show (calculateSummary ts).expense
        = (ts.foldl summaryStep ⟨.num 0, .num 0, 0, 0⟩).expense from rfl,
      foldl_summaryStep_expense]
    exact jsAmountFold_of_none _ _ t (List.mem_filter.mpr ⟨ht, by simp [h]⟩) ha
  · simpa using foldl_summaryStep_counts_total ts ⟨.num 0, .num 0, 0, 0⟩

theorem C1_amended_witness :
    (calculateSummary [{ type := "income", amount := none, categories := none }]).income
      = JsNum.nan := by
  exact (C1_amended [{ type := "income", amount := none, categories := none }]
    { type := "income", amount := none, categories := none }
    (by decide) rfl).1 rfl

/-- Claim C7: for transaction lists whose amounts are all (non-negative)
numbers, the summary's income and expense are actual numbers and
`total = income − expense` holds as an exact identity of those numbers. -/
theorem C7_total_eq (ts : List Transaction)
    (h : ∀ t ∈ ts, ∃ q : ℚ, t.amount = some q ∧ 0 ≤ q) :
    ∃ i e : ℚ, (calculateSummary ts).income = .num i
      ∧ (calculateSummary ts).expense = .num e
      ∧ (calculateSummary ts).total = .num (i - e) := by
  obtain ⟨i, hi⟩ := jsAmountFold_num (ts.filter fun t => t.type == "income") 0
    (fun t htf => (h t (List.mem_of_mem_filter htf)).imp fun q hq => hq.1)
  obtain ⟨e, he⟩ := jsAmountFold_num (ts.filter fun t => !(t.type == "income")) 0
    (fun t htf => (h t (List.mem_of_mem_filter htf)).imp fun q hq => hq.1)
  have hI : (calculateSummary ts).income = .num i := by
    rw [show (calculateSummary ts).income
        = (ts.foldl summaryStep ⟨.num 0, .num 0, 0, 0⟩).income from rfl,
      foldl_summaryStep_income]
    exact hi
  have hE : (calculateSummary ts).expense = .num e := by
    rw [show (calculateSummary ts).expense
        = (ts.foldl summaryStep ⟨.num 0, .num 0, 0, 0⟩).expense from rfl,
      foldl_summaryStep_expense]
    exact he
  refine ⟨i, e, hI, hE, ?_⟩
  have : (calculateSummary ts).total
      = ((calculateSummary ts).income).sub ((calculateSummary ts).expense) := rfl
  rw [this, hI, hE]
  rfl

theorem C7_total_eq_witness :
    ∃ i e : ℚ,
      (calculateSummary [{ type := "income", amount := some 5, categories := none },
                         { type := "expense", amount := some 3, categories := none }]).income = .num i
      ∧ (calculateSummary [{ type := "income", amount := some 5, categories := none },
                           { type := "expense", amount := some 3, categories := none }]).expense = .num e
      ∧ (calculateSummary [{ type := "income", amount := some 5, categories := none },
                           { type := "expense", amount := some 3, categories := none }]).total
          = .num (i - e) := by
  refine C7_total_eq _ ?_
  intro t ht
  fin_cases ht
  · exact ⟨5, rfl, by norm_num⟩
  · exact ⟨3, rfl, by norm_num⟩

/-- Claim C8: the summary of the empty list is all-zero (with the `'∞'`
ratio sentinel, since expense is 0), and whenever the computed income is 0
the savings rate is 0 — the division by income is guarded by `income > 0`
and never performed. -/
theorem C8_empty_and_guard :
    calculateSummary []
      = { income := .num 0, expense := .num 0, total := .num 0, incomeCount := 0,
          expenseCount := 0, savingsRate := .num 0, ratio := none }
    ∧ ∀ ts : List Transaction,
        (calculateSummary ts).income = JsNum.num 0 →
        (calculateSummary ts).savingsRate = JsNum.num 0 := by
  refine ⟨by norm_num [calculateSummary, summaryStep, JsNum.sub, JsNum.gtZero, JsNum.add], fun ts h => ?_⟩
  have h' : (ts.foldl summaryStep ⟨.num 0, .num 0, 0, 0⟩).income = JsNum.num 0 := h
  show (if (ts.foldl summaryStep ⟨.num 0, .num 0, 0, 0⟩).income.gtZero
        then _ else JsNum.num 0) = JsNum.num 0
  rw [h']
  simp [JsNum.gtZero]

theorem C8_empty_and_guard_witness :
    (calculateSummary [{ type := "expense", amount := some 7, categories := none }]).savingsRate
      = JsNum.num 0 :=
  C8_empty_and_guard.2 [{ type := "expense", amount := some 7, categories := none }] (by decide)

/-- The fixed fallback palette of `getRandomColor` (Reports.jsx lines 134-137). -/
def colorPalette : List String :=
  ["#3b82f6", "#ef4444", "#10b981", "#f59e0b", "#8b5cf6",
   "#ec4899", "#14b8a6", "#f97316", "#6366f1", "#84cc16"]

/-- JS `ToInt32`: reduce an integer to the signed 32-bit range, as the `<<`
operator does to its operand and result. -/
def toInt32 (n : ℤ) : ℤ :=
  let m := n % 4294967296
  if m < 2147483648 then m else m - 4294967296

/-- `getRandomColor(seed)` (Reports.jsx lines 133-145): the loop computes
`hash = seed.charCodeAt(i) + ((hash << 5) - hash)` (with `<<` operating on
32-bit integers) and picks `colors[Math.abs(hash) % colors.length]`.
`charCodeAt` returns UTF-16 code units, which coincide with `Char.toNat` for
the basic-plane characters occurring in category names. -/
def getRandomColor (seed : String) : String :=
  let hash : ℤ := seed.data.foldl
    (fun h c => (c.toNat : ℤ) + (toInt32 (toInt32 h * 32) - h)) 0
  colorPalette.getD (hash.natAbs % colorPalette.length) ""

/-- The Map key used by all three aggregations:
`transaction.categories.name || 'Uncategorized'` (a falsy name is modelled
as `none`). -/
def bucketKey (c : Category) : String := c.name.getD "Uncategorized"

/-- Replace the first element satisfying `p` by its image under `f`; this is
the in-place mutation of the single `Map` entry with the matching key (keys
are unique in a JS `Map`). -/
def updateFirstBy (p : α → Bool) (f : α → α) : List α → List α
  | [] => []
  | x :: xs => if p x then f x :: xs else x :: updateFirstBy p f xs

/-- Stable insertion into a list sorted by strictly descending `key`, placing
the new element after all elements that do not compare strictly below it;
together with `sortByDesc` this models the stable
`.sort((a, b) => b.key - a.key)` on NaN-free values. -/
def insertByDesc (key : α → JsNum) (x : α) : List α → List α
  | [] => [x]
  | y :: ys => if (key y).gtB (key x) then y :: insertByDesc key x ys else x :: y :: ys

/-- Stable sort by descending `key` (JS `Array.prototype.sort` is stable). -/
def sortByDesc (key : α → JsNum) : List α → List α
  | [] => []
  | x :: xs => insertByDesc key x (sortByDesc key xs)

/-- One per-category accumulator entry of `getCombinedPieChartData`
(Reports.jsx lines 231-239). -/
structure CombinedBucket where
  name : String
  income : JsNum
  expense : JsNum
  total : JsNum
  color : String
  count : ℕ
deriving DecidableEq

/-- The mutation applied to the (found or freshly inserted) bucket for each
transaction (Reports.jsx lines 242-249). -/
def applyTxCombined (t : Transaction) (b : CombinedBucket) : CombinedBucket :=
  let amount := parseFloat t.amount
  let b' := if t.type = "income" then { b with income := b.income.add amount }
            else { b with expense := b.expense.add amount }
  { b' with total := b'.total.add amount, count := b'.count + 1 }

/-- The body of the `forEach` in `getCombinedPieChartData` (lines 225-251):
transactions without a joined `categories` record are skipped entirely;
otherwise the bucket keyed by the (defaulted) category name is created on
first sight and updated. -/
def addToCombined (bs : List CombinedBucket) (t : Transaction) : List CombinedBucket :=
  match t.categories with
  | none => bs
  | some c =>
    let k := bucketKey c
    if bs.any (fun b => b.name == k) then
      updateFirstBy (fun b => b.name == k) (applyTxCombined t) bs
    else
      bs ++ [applyTxCombined t
        { name := k, income := .num 0, expense := .num 0, total := .num 0,
          color := c.color.getD (getRandomColor k), count := 0 }]

/-- The per-entry shape returned by `getCombinedPieChartData` after the
`.map` (lines 255-260): the spread plus `value`, `displayName` and the
dominant `type`. -/
structure PieEntry where
  name : String
  income : JsNum
  expense : JsNum
  total : JsNum
  color : String
  count : ℕ
  value : JsNum
  displayName : String
  type : String
deriving DecidableEq

def toPieEntry (b : CombinedBucket) : PieEntry :=
  { name := b.name, income := b.income, expense := b.expense, total := b.total,
    color := b.color, count := b.count, value := b.total, displayName := b.name,
    type := if b.income.gtB b.expense then "income" else "expense" }

/-- `getCombinedPieChartData` (Reports.jsx lines 222-264):
accumulate per-category buckets, drop those with `total > 0` false, map to
pie entries, and sort by descending total. -/
def getCombinedPieChartData (ts : List Transaction) : List PieEntry :=
  sortByDesc (fun e => e.total)
    (((ts.foldl addToCombined []).filter (fun b => b.total.gtZero)).map toPieEntry)

/-- One per-category entry of `getTypePieChartData` (lines 310-317). -/
structure TypeBucket where
  name : String
  value : JsNum
  color : String
  count : ℕ
  type : String
deriving DecidableEq

/-- The mutation `category.value += amount; category.count += 1`
(lines 320-323). -/
def applyTxType (t : Transaction) (b : TypeBucket) : TypeBucket :=
  { b with value := b.value.add (parseFloat t.amount), count := b.count + 1 }

/-- The body of the `forEach` in `getTypePieChartData` (lines 305-324): only
transactions of the selected type with a joined category record contribute. -/
def addToType (chartType : String) (bs : List TypeBucket) (t : Transaction) : List TypeBucket :=
  if t.type = chartType then
    match t.categories with
    | none => bs
    | some c =>
      let k := bucketKey c
      if bs.any (fun b => b.name == k) then
        updateFirstBy (fun b => b.name == k) (applyTxType t) bs
      else
        bs ++ [applyTxType t
          { name := k, value := .num 0, color := c.color.getD (getRandomColor k),
            count := 0, type := chartType }]
  else bs

/-- The filtered and sorted bucket list of `getTypePieChartData` before the
"Other" merge (lines 326-328). -/
def typePieSorted (ts : List Transaction) (chartType : String) : List TypeBucket :=
  sortByDesc (fun b => b.value)
    ((ts.foldl (addToType chartType) []).filter (fun b => b.value.gtZero))

/-- The synthetic "Other" bucket (lines 333-342): value and count are the
`reduce` sums over the merged tail. -/
def mkOtherBucket (chartType : String) (l : List TypeBucket) : TypeBucket :=
  { name := "Other",
    value := l.foldl (fun s b => s.add b.value) (.num 0),
    color := "#94a3b8",
    count := l.foldl (fun s b => s + b.count) 0,
    type := chartType }

/-- `getTypePieChartData` (Reports.jsx lines 302-348): when the bucket count
exceeds the display threshold (mobile: 5, else 8), keep the top 4 resp. 7 and
append the "Other" merge of the rest. -/
def getTypePieChartData (ts : List Transaction) (chartType : String) (isMobile : Bool) :
    List TypeBucket :=
  let result := typePieSorted ts chartType
  if result.length > (if isMobile then 5 else 8) then
    result.take (if isMobile then 4 else 7)
      ++ [mkOtherBucket chartType (result.drop (if isMobile then 4 else 7))]
  else result

/-- One per-category entry of `getBarChartData` (lines 276-282); the stored
`name` is the truncated display name while the `Map` key remains the full
category name, so the accumulator carries (key, bucket) pairs. -/
structure BarBucket where
  name : String
  income : JsNum
  expense : JsNum
  net : JsNum
deriving DecidableEq

/-- `categoryName.length > 15 ? categoryName.substring(0, 12) + '...' :
categoryName` (line 278). -/
def truncName (s : String) : String :=
  if s.length > 15 then s.take 12 ++ "..." else s

/-- The mutation of lines 285-291: accumulate into income or expense, then
recompute `net = income - expense`. -/
def applyTxBar (t : Transaction) (b : BarBucket) : BarBucket :=
  let amount := parseFloat t.amount
  let b' := if t.type = "income" then { b with income := b.income.add amount }
            else { b with expense := b.expense.add amount }
  { b' with net := b'.income.sub b'.expense }

/-- The body of the `forEach` in `getBarChartData` (lines 270-293). -/
def addToBar (bs : List (String × BarBucket)) (t : Transaction) : List (String × BarBucket) :=
  match t.categories with
  | none => bs
  | some c =>
    let k := bucketKey c
    if bs.any (fun p => p.1 == k) then
      updateFirstBy (fun p => p.1 == k) (fun p => (p.1, applyTxBar t p.2)) bs
    else
      bs ++ [(k, applyTxBar t
        { name := truncName k, income := .num 0, expense := .num 0, net := .num 0 })]

/-- The filtered list of `getBarChartData` sorted by descending `|net|`,
before the `.slice(0, 8)` cap (lines 295-297). -/
def barChartRanked (ts : List Transaction) : List BarBucket :=
  sortByDesc (fun b => b.net.abs)
    (((ts.foldl addToBar []).map Prod.snd).filter
      (fun b => b.income.gtZero || b.expense.gtZero))

/-- `getBarChartData` (Reports.jsx lines 267-299). -/
def getBarChartData (ts : List Transaction) : List BarBucket :=
  (barChartRanked ts).take 8

theorem length_insertByDesc (key : α → JsNum) (x : α) (l : List α) :
    (insertByDesc key x l).length = l.length + 1 := by
  induction l with
  | nil => rfl
  | cons y ys ih =>
    unfold insertByDesc
    split
    · simp [ih]
    · simp

theorem length_sortByDesc (key : α → JsNum) (l : List α) :
    (sortByDesc key l).length = l.length := by
  induction l with
  | nil => rfl
  | cons x xs ih =>
    unfold sortByDesc
    rw [length_insertByDesc, ih, List.length_cons]

theorem mem_insertByDesc (key : α → JsNum) (x a : α) (l : List α) :
    a ∈ insertByDesc key x l ↔ a = x ∨ a ∈ l := by
  induction l with
  | nil => simp [insertByDesc]
  | cons y ys ih =>
    unfold insertByDesc
    split
    · simp only [List.mem_cons, ih]
      tauto
    · simp [List.mem_cons]

theorem mem_sortByDesc (key : α → JsNum) (a : α) (l : List α) :
    a ∈ sortByDesc key l ↔ a ∈ l := by
  induction l with
  | nil => simp [sortByDesc]
  | cons x xs ih =>
    unfold sortByDesc
    rw [mem_insertByDesc]
    simp [ih]

/-- Sum of a list of JS numbers, starting from `0` as the JS `reduce` does. -/
def jsSumList (l : List JsNum) : JsNum := l.foldl JsNum.add (.num 0)

theorem foldl_jsAdd_shift (l : List JsNum) (a b : JsNum) :
    l.foldl JsNum.add (a.add b) = a.add (l.foldl JsNum.add b) := by
  induction l generalizing b with
  | nil => rfl
  | cons x xs ih =>
    simp only [List.foldl_cons]
    rw [jsAdd_assoc, ih]

theorem jsSumList_cons (x : JsNum) (l : List JsNum) :
    jsSumList (x :: l) = x.add (jsSumList l) := by
  unfold jsSumList
  simp only [List.foldl_cons]
  rw [jsAdd_comm, foldl_jsAdd_shift]

theorem jsSumList_append (l₁ l₂ : List JsNum) :
    jsSumList (l₁ ++ l₂) = (jsSumList l₁).add (jsSumList l₂) := by
  induction l₁ with
  | nil => simp [jsSumList, jsZero_add]
  | cons x xs ih =>
    simp only [List.cons_append, jsSumList_cons, ih]
    rw [jsAdd_assoc]

theorem jsSumList_map_insertByDesc (key : α → JsNum) (f : α → JsNum) (x : α) (l : List α) :
    jsSumList ((insertByDesc key x l).map f) = (f x).add (jsSumList (l.map f)) := by
  induction l with
  | nil => simp [insertByDesc, jsSumList_cons]
  | cons y ys ih =>
    unfold insertByDesc
    split
    · simp only [List.map_cons, jsSumList_cons, ih]
      rw [jsAdd_left_comm]
    · simp [List.map_cons, jsSumList_cons]

theorem jsSumList_map_sortByDesc (key : α → JsNum) (f : α → JsNum) (l : List α) :
    jsSumList ((sortByDesc key l).map f) = jsSumList (l.map f) := by
  induction l with
  | nil => rfl
  | cons x xs ih =>
    unfold sortByDesc
    rw [jsSumList_map_insertByDesc, ih, List.map_cons, jsSumList_cons]

theorem mem_updateFirstBy {p : α → Bool} {f : α → α} {l : List α} {b : α}
    (hb : b ∈ updateFirstBy p f l) : b ∈ l ∨ ∃ b₀, b₀ ∈ l ∧ b = f b₀ := by
  induction l with
  | nil => simp [updateFirstBy] at hb
  | cons x xs ih =>
    unfold updateFirstBy at hb
    by_cases hx : p x = true
    · rw [if_pos hx] at hb
      rcases List.mem_cons.mp hb with rfl | h
      · exact Or.inr ⟨x, List.mem_cons_self x xs, rfl⟩
      · exact Or.inl (List.mem_cons_of_mem _ h)
    · rw [if_neg hx] at hb
      rcases List.mem_cons.mp hb with rfl | h
      · exact Or.inl (List.mem_cons_self b xs)
      · rcases ih h with h1 | ⟨b₀, hb₀, rfl⟩
        · exact Or.inl (List.mem_cons_of_mem _ h1)
        · exact Or.inr ⟨b₀, List.mem_cons_of_mem _ hb₀, rfl⟩

theorem updateFirstBy_exists {p : α → Bool} {f : α → α} {l : List α}
    (h : l.any p = true) : ∃ x, p x = true ∧ x ∈ l ∧ f x ∈ updateFirstBy p f l := by
  induction l with
  | nil => simp at h
  | cons x xs ih =>
    by_cases hx : p x = true
    · refine ⟨x, hx, List.mem_cons_self x xs, ?_⟩
      unfold updateFirstBy
      rw [if_pos hx]
      exact List.mem_cons_self _ _
    · have h' : xs.any p = true := by
        simp only [List.any_cons, Bool.or_eq_true] at h
        tauto
      obtain ⟨y, hy, hyl, hyf⟩ := ih h'
      refine ⟨y, hy, List.mem_cons_of_mem _ hyl, ?_⟩
      unfold updateFirstBy
      rw [if_neg hx]
      exact List.mem_cons_of_mem _ hyf

theorem updateFirstBy_preserves {p : α → Bool} {f : α → α} {l : List α} (Q : α → Prop)
    (hf : ∀ x, Q x → Q (f x)) {b₀ : α} (hb₀ : b₀ ∈ l) (hQ : Q b₀) :
    ∃ b ∈ updateFirstBy p f l, Q b := by
  induction l with
  | nil => cases hb₀
  | cons x xs ih =>
    unfold updateFirstBy
    by_cases hx : p x = true
    · rw [if_pos hx]
      rcases List.mem_cons.mp hb₀ with rfl | h
      · exact ⟨f b₀, List.mem_cons_self _ _, hf b₀ hQ⟩
      · exact ⟨b₀, List.mem_cons_of_mem _ h, hQ⟩
    · rw [if_neg hx]
      rcases List.mem_cons.mp hb₀ with rfl | h
      · exact ⟨b₀, List.mem_cons_self _ _, hQ⟩
      · obtain ⟨b, hb, hbQ⟩ := ih h
        exact ⟨b, List.mem_cons_of_mem _ hb, hbQ⟩

theorem applyTxCombined_total (t : Transaction) (b : CombinedBucket) :
    (applyTxCombined t b).total = b.total.add (parseFloat t.amount) := by
  unfold applyTxCombined
  by_cases h : t.type = "income" <;> simp [h]

theorem applyTxCombined_name (t : Transaction) (b : CombinedBucket) :
    (applyTxCombined t b).name = b.name := by
  unfold applyTxCombined
  by_cases h : t.type = "income" <;> simp [h]

theorem applyTxCombined_count (t : Transaction) (b : CombinedBucket) :
    (applyTxCombined t b).count = b.count + 1 := by
  unfold applyTxCombined
  by_cases h : t.type = "income" <;> simp [h]

theorem updateFirstBy_combined_total_sum (k : String) (t : Transaction)
    (bs : List CombinedBucket) (h : bs.any (fun b => b.name == k) = true) :
    jsSumList ((updateFirstBy (fun b => b.name == k) (applyTxCombined t) bs).map
        (fun b => b.total))
      = (jsSumList (bs.map fun b => b.total)).add (parseFloat t.amount) := by
  induction bs with
  | nil => simp at h
  | cons b bs ih =>
    unfold updateFirstBy
    by_cases hb : (b.name == k) = true
    · rw [if_pos hb]
      simp only [List.map_cons, jsSumList_cons, applyTxCombined_total]
      rw [jsAdd_right_comm]
    · rw [if_neg hb]
      have h' : bs.any (fun b => b.name == k) = true := by
        simp only [List.any_cons, Bool.or_eq_true] at h
        tauto
      simp only [List.map_cons, jsSumList_cons, ih h']
      rw [jsAdd_assoc]

theorem addToCombined_total_sum (bs : List CombinedBucket) (t : Transaction) :
    jsSumList ((addToCombined bs t).map fun b => b.total)
      = if t.categories.isSome
        then (jsSumList (bs.map fun b => b.total)).add (parseFloat t.amount)
        else jsSumList (bs.map fun b => b.total) := by
  unfold addToCombined
  cases hc : t.categories with
  | none => simp
  | some c =>
    simp only [Option.isSome_some, if_true]
    split
    · exact updateFirstBy_combined_total_sum _ t bs (by assumption)
    · rw [List.map_append, jsSumList_append]
      simp only [List.map_cons, List.map_nil, jsSumList_cons, applyTxCombined_total]
      rw [jsZero_add]
      congr 1
      exact jsAdd_zero _

theorem foldl_addToCombined_total_sum (ts : List Transaction) (bs : List CombinedBucket) :
    jsSumList ((ts.foldl addToCombined bs).map fun b => b.total)
      = ts.foldl
          (fun a t => if t.categories.isSome then a.add (parseFloat t.amount) else a)
          (jsSumList (bs.map fun b => b.total)) := by
  induction ts generalizing bs with
  | nil => rfl
  | cons t ts ih =>
    simp only [List.foldl_cons]
    rw [ih, addToCombined_total_sum]

theorem foldl_catAmount_eq_jsAmountFold (ts : List Transaction) (a : JsNum)
    (h : ∀ t ∈ ts, t.categories.isSome = true) :
    ts.foldl (fun a t => if t.categories.isSome then a.add (parseFloat t.amount) else a) a
      = jsAmountFold a ts := by
  induction ts generalizing a with
  | nil => rfl
  | cons t ts ih =>
    simp only [List.foldl_cons, h t (List.mem_cons_self t ts), if_true]
    rw [jsAmountFold_cons]
    exact ih _ fun t' ht' => h t' (List.mem_cons_of_mem _ ht')

theorem foldl_summary_income_add_expense (ts : List Transaction) (acc : SummaryAcc) :
    ((ts.foldl summaryStep acc).income).add ((ts.foldl summaryStep acc).expense)
      = jsAmountFold (acc.income.add acc.expense) ts := by
  induction ts generalizing acc with
  | nil => rfl
  | cons t ts ih =>
    by_cases h : t.type = "income"
    · simp only [List.foldl_cons, summaryStep, h, if_true]
      rw [ih, jsAmountFold_cons]
      simp only []
      rw [jsAdd_right_comm]
    · simp only [List.foldl_cons, summaryStep, h, if_false]
      rw [ih, jsAmountFold_cons]
      simp only []
      rw [← jsAdd_assoc]

theorem addToCombined_pos (bs : List CombinedBucket) (t : Transaction)
    (ht : ∃ q : ℚ, t.amount = some q ∧ 0 < q)
    (hbs : ∀ b ∈ bs, ∃ q : ℚ, b.total = .num q ∧ 0 < q) :
    ∀ b ∈ addToCombined bs t, ∃ q : ℚ, b.total = .num q ∧ 0 < q := by
  obtain ⟨q, hq, hq0⟩ := ht
  intro b hb
  unfold addToCombined at hb
  cases hc : t.categories with
  | none =>
    simp only [hc] at hb
    exact hbs b hb
  | some c =>
    simp only [hc] at hb
    split at hb
    · rcases mem_updateFirstBy hb with h1 | ⟨b₀, hb₀, rfl⟩
      · exact hbs b h1
      · obtain ⟨q₀, hq₀, hq₀0⟩ := hbs b₀ hb₀
        refine ⟨q₀ + q, ?_, by linarith⟩
        rw [applyTxCombined_total, hq₀, hq]
        rfl
    · rcases List.mem_append.mp hb with h1 | h1
      · exact hbs b h1
      · rw [List.mem_singleton.mp h1, applyTxCombined_total, hq]
        exact ⟨0 + q, rfl, by linarith⟩

theorem foldl_addToCombined_pos (ts : List Transaction) (bs : List CombinedBucket)
    (hts : ∀ t ∈ ts, ∃ q : ℚ, t.amount = some q ∧ 0 < q)
    (hbs : ∀ b ∈ bs, ∃ q : ℚ, b.total = .num q ∧ 0 < q) :
    ∀ b ∈ ts.foldl addToCombined bs, ∃ q : ℚ, b.total = .num q ∧ 0 < q := by
  induction ts generalizing bs with
  | nil => exact hbs
  | cons t ts ih =>
    exact ih _ (fun t' ht' => hts t' (List.mem_cons_of_mem _ ht'))
      (addToCombined_pos bs t (hts t (List.mem_cons_self t ts)) hbs)

/-- Claim C4 fails on the code: a transaction with no joined category record
contributes to income+expense but to no category bucket, so the bucket totals
sum to 0 while income+expense is 100. -/
theorem C4_counterexample :
    ¬ (jsSumList ((getCombinedPieChartData
          [{ type := "expense", amount := some 100, categories := none }]).map
          fun e => e.total)
        = ((calculateSummary
              [{ type := "expense", amount := some 100, categories := none }]).income).add
            ((calculateSummary
              [{ type := "expense", amount := some 100, categories := none }]).expense)) := by
  intro h
  have hL : jsSumList ((getCombinedPieChartData
      [{ type := "expense", amount := some 100, categories := none }]).map
      fun e => e.total) = JsNum.num 0 := rfl
  have hR : ((calculateSummary
        [{ type := "expense", amount := some 100, categories := none }]).income).add
      ((calculateSummary
        [{ type := "expense", amount := some 100, categories := none }]).expense)
      = JsNum.num (0 + (0 + 100)) := rfl
  rw [hL, hR] at h
  simp at h

/-- Claim C4 (amended): when every transaction carries a joined category
record and a positive numeric amount, the sum of the `total` field over the
combined-mode buckets equals income + expense of the summary.  (Without the
category restriction the claim fails: uncategorised transactions are skipped
by the bucket computation; with non-positive or non-numeric amounts buckets
can additionally be dropped by the `total > 0` filter.) -/
theorem C4_amended (ts : List Transaction)
    (h : ∀ t ∈ ts, (∃ q : ℚ, t.amount = some q ∧ 0 < q) ∧ t.categories.isSome = true) :
    jsSumList ((getCombinedPieChartData ts).map fun e => e.total)
      = ((calculateSummary ts).income).add ((calculateSummary ts).expense) := by
  have hpos : ∀ b ∈ ts.foldl addToCombined [], ∃ q : ℚ, b.total = .num q ∧ 0 < q :=
    foldl_addToCombined_pos ts [] (fun t ht => (h t ht).1) (by simp)
  have hfilter : (ts.foldl addToCombined []).filter (fun b => b.total.gtZero)
      = ts.foldl addToCombined [] := by
    rw [List.filter_eq_self]
    intro b hb
    obtain ⟨q, hq, hq0⟩ := hpos b hb
    simp [JsNum.gtZero, hq, hq0]
  have h1 : jsSumList ((getCombinedPieChartData ts).map fun e => e.total)
      = jsSumList ((ts.foldl addToCombined []).map fun b => b.total) := by
    unfold getCombinedPieChartData
    rw [jsSumList_map_sortByDesc, hfilter, List.map_map]
    rfl
  rw [h1, foldl_addToCombined_total_sum]
  have h2 : jsSumList (([] : List CombinedBucket).map fun b => b.total) = JsNum.num 0 := rfl
  rw [h2, foldl_catAmount_eq_jsAmountFold ts _ (fun t ht => (h t ht).2)]
  rw [show (calculateSummary ts).income
        = (ts.foldl summaryStep ⟨.num 0, .num 0, 0, 0⟩).income from rfl,
      show (calculateSummary ts).expense
        = (ts.foldl summaryStep ⟨.num 0, .num 0, 0, 0⟩).expense from rfl,
      foldl_summary_income_add_expense]
  norm_num [JsNum.add]

theorem C4_amended_witness :
    jsSumList ((getCombinedPieChartData
        [{ type := "income", amount := some 5,
           categories := some { name := some "Salary", color := some "#111111" } },
         { type := "expense", amount := some 3,
           categories := some { name := some "Food", color := some "#222222" } }]).map
        fun e => e.total)
      = ((calculateSummary
            [{ type := "income", amount := some 5,
               categories := some { name := some "Salary", color := some "#111111" } },
             { type := "expense", amount := some 3,
               categories := some { name := some "Food", color := some "#222222" } }]).income).add
          ((calculateSummary
            [{ type := "income", amount := some 5,
               categories := some { name := some "Salary", color := some "#111111" } },
             { type := "expense", amount := some 3,
               categories := some { name := some "Food", color := some "#222222" } }]).expense) := by
  apply C4_amended
  intro t ht
  fin_cases ht
  · exact ⟨⟨5, rfl, by norm_num⟩, rfl⟩
  · exact ⟨⟨3, rfl, by norm_num⟩, rfl⟩

theorem addToCombined_none (bs : List CombinedBucket) (t : Transaction)
    (hc : t.categories = none) : addToCombined bs t = bs := by
  unfold addToCombined
  rw [hc]

theorem addToCombined_some (bs : List CombinedBucket) (t : Transaction) (c : Category)
    (hc : t.categories = some c) :
    addToCombined bs t =
      if bs.any (fun b => b.name == bucketKey c) then
        updateFirstBy (fun b => b.name == bucketKey c) (applyTxCombined t) bs
      else
        bs ++ [applyTxCombined t
          { name := bucketKey c, income := .num 0, expense := .num 0, total := .num 0,
            color := c.color.getD (getRandomColor (bucketKey c)), count := 0 }] := by
  unfold addToCombined
  rw [hc]

theorem addToCombined_establishes (bs : List CombinedBucket) (t : Transaction) (c : Category)
    (hc : t.categories = some c) :
    ∃ b ∈ addToCombined bs t, b.name = bucketKey c ∧ 1 ≤ b.count := by
  rw [addToCombined_some bs t c hc]
  split
  · next hany =>
    obtain ⟨x, hx, hxl, hxf⟩ := updateFirstBy_exists hany
    refine ⟨applyTxCombined t x, hxf, ?_, ?_⟩
    · rw [applyTxCombined_name]
      simpa using hx
    · rw [applyTxCombined_count]
      omega
  · refine ⟨_, List.mem_append.mpr (Or.inr (List.mem_singleton.mpr rfl)), ?_, ?_⟩
    · rw [applyTxCombined_name]
    · rw [applyTxCombined_count]

theorem addToCombined_preserves_key (bs : List CombinedBucket) (t : Transaction) (k : String)
    (h : ∃ b ∈ bs, b.name = k ∧ 1 ≤ b.count) :
    ∃ b ∈ addToCombined bs t, b.name = k ∧ 1 ≤ b.count := by
  obtain ⟨b₀, hb₀, hname, hcount⟩ := h
  cases hc : t.categories with
  | none =>
    rw [addToCombined_none bs t hc]
    exact ⟨b₀, hb₀, hname, hcount⟩
  | some c =>
    rw [addToCombined_some bs t c hc]
    split
    · exact updateFirstBy_preserves (fun b => b.name = k ∧ 1 ≤ b.count)
        (fun x hx => ⟨by rw [applyTxCombined_name]; exact hx.1,
                      by rw [applyTxCombined_count]; omega⟩) hb₀ ⟨hname, hcount⟩
    · exact ⟨b₀, List.mem_append.mpr (Or.inl hb₀), hname, hcount⟩

theorem foldl_addToCombined_preserves_key (ts : List Transaction)
    (bs : List CombinedBucket) (k : String)
    (h : ∃ b ∈ bs, b.name = k ∧ 1 ≤ b.count) :
    ∃ b ∈ ts.foldl addToCombined bs, b.name = k ∧ 1 ≤ b.count := by
  induction ts generalizing bs with
  | nil => exact h
  | cons t ts ih => exact ih _ (addToCombined_preserves_key bs t k h)

theorem foldl_addToCombined_key_of_mem (ts : List Transaction) (bs : List CombinedBucket)
    (t : Transaction) (c : Category) (ht : t ∈ ts) (hc : t.categories = some c) :
    ∃ b ∈ ts.foldl addToCombined bs, b.name = bucketKey c ∧ 1 ≤ b.count := by
  induction ts generalizing bs with
  | nil => cases ht
  | cons hd tl ih =>
    rcases List.mem_cons.mp ht with rfl | hm
    · exact foldl_addToCombined_preserves_key tl _ _ (addToCombined_establishes bs t c hc)
    · exact ih _ hm

theorem applyTxType_name (t : Transaction) (b : TypeBucket) :
    (applyTxType t b).name = b.name := rfl

theorem applyTxType_count (t : Transaction) (b : TypeBucket) :
    (applyTxType t b).count = b.count + 1 := rfl

theorem applyTxType_value (t : Transaction) (b : TypeBucket) :
    (applyTxType t b).value = b.value.add (parseFloat t.amount) := rfl

theorem addToType_skip (ct : String) (bs : List TypeBucket) (t : Transaction)
    (htype : ¬ t.type = ct) : addToType ct bs t = bs := by
  unfold addToType
  rw [if_neg htype]

theorem addToType_none (ct : String) (bs : List TypeBucket) (t : Transaction)
    (hc : t.categories = none) : addToType ct bs t = bs := by
  unfold addToType
  rw [hc]
  split <;> rfl

theorem addToType_some (ct : String) (bs : List TypeBucket) (t : Transaction) (c : Category)
    (htype : t.type = ct) (hc : t.categories = some c) :
    addToType ct bs t =
      if bs.any (fun b => b.name == bucketKey c) then
        updateFirstBy (fun b => b.name == bucketKey c) (applyTxType t) bs
      else
        bs ++ [applyTxType t
          { name := bucketKey c, value := .num 0,
            color := c.color.getD (getRandomColor (bucketKey c)), count := 0, type := ct }] := by
  unfold addToType
  rw [if_pos htype, hc]

theorem addToType_establishes (ct : String) (bs : List TypeBucket) (t : Transaction)
    (c : Category) (hc : t.categories = some c) (htype : t.type = ct) :
    ∃ b ∈ addToType ct bs t, b.name = bucketKey c ∧ 1 ≤ b.count := by
  rw [addToType_some ct bs t c htype hc]
  split
  · next hany =>
    obtain ⟨x, hx, hxl, hxf⟩ := updateFirstBy_exists hany
    refine ⟨applyTxType t x, hxf, ?_, ?_⟩
    · rw [applyTxType_name]
      simpa using hx
    · rw [applyTxType_count]
      omega
  · refine ⟨_, List.mem_append.mpr (Or.inr (List.mem_singleton.mpr rfl)), ?_, ?_⟩
    · rw [applyTxType_name]
    · rw [applyTxType_count]

theorem addToType_preserves_key (ct : String) (bs : List TypeBucket) (t : Transaction)
    (k : String) (h : ∃ b ∈ bs, b.name = k ∧ 1 ≤ b.count) :
    ∃ b ∈ addToType ct bs t, b.name = k ∧ 1 ≤ b.count := by
  obtain ⟨b₀, hb₀, hname, hcount⟩ := h
  by_cases htype : t.type = ct
  · cases hc : t.categories with
    | none =>
      rw [addToType_none ct bs t hc]
      exact ⟨b₀, hb₀, hname, hcount⟩
    | some c =>
      rw [addToType_some ct bs t c htype hc]
      split
      · exact updateFirstBy_preserves (fun b => b.name = k ∧ 1 ≤ b.count)
          (fun x hx => ⟨by rw [applyTxType_name]; exact hx.1,
                        by rw [applyTxType_count]; omega⟩) hb₀ ⟨hname, hcount⟩
      · exact ⟨b₀, List.mem_append.mpr (Or.inl hb₀), hname, hcount⟩
  · rw [addToType_skip ct bs t htype]
    exact ⟨b₀, hb₀, hname, hcount⟩

theorem foldl_addToType_preserves_key (ct : String) (ts : List Transaction)
    (bs : List TypeBucket) (k : String)
    (h : ∃ b ∈ bs, b.name = k ∧ 1 ≤ b.count) :
    ∃ b ∈ ts.foldl (addToType ct) bs, b.name = k ∧ 1 ≤ b.count := by
  induction ts generalizing bs with
  | nil => exact h
  | cons t ts ih => exact ih _ (addToType_preserves_key ct bs t k h)

theorem foldl_addToType_key_of_mem (ct : String) (ts : List Transaction)
    (bs : List TypeBucket) (t : Transaction) (c : Category)
    (ht : t ∈ ts) (hc : t.categories = some c) (htype : t.type = ct) :
    ∃ b ∈ ts.foldl (addToType ct) bs, b.name = bucketKey c ∧ 1 ≤ b.count := by
  induction ts generalizing bs with
  | nil => cases ht
  | cons hd tl ih =>
    rcases List.mem_cons.mp ht with rfl | hm
    · exact foldl_addToType_preserves_key ct tl _ _ (addToType_establishes ct bs t c hc htype)
    · exact ih _ hm

theorem addToType_pos (ct : String) (bs : List TypeBucket) (t : Transaction)
    (ht : ∃ q : ℚ, t.amount = some q ∧ 0 < q)
    (hbs : ∀ b ∈ bs, ∃ q : ℚ, b.value = .num q ∧ 0 < q) :
    ∀ b ∈ addToType ct bs t, ∃ q : ℚ, b.value = .num q ∧ 0 < q := by
  obtain ⟨q, hq, hq0⟩ := ht
  intro b hb
  by_cases htype : t.type = ct
  · cases hc : t.categories with
    | none =>
      rw [addToType_none ct bs t hc] at hb
      exact hbs b hb
    | some c =>
      rw [addToType_some ct bs t c htype hc] at hb
      split at hb
      · rcases mem_updateFirstBy hb with h1 | ⟨b₀, hb₀, rfl⟩
        · exact hbs b h1
        · obtain ⟨q₀, hq₀, hq₀0⟩ := hbs b₀ hb₀
          refine ⟨q₀ + q, ?_, by linarith⟩
          rw [applyTxType_value, hq₀, hq]
          rfl
      · rcases List.mem_append.mp hb with h1 | h1
        · exact hbs b h1
        · rw [List.mem_singleton.mp h1, applyTxType_value, hq]
          exact ⟨0 + q, rfl, by linarith⟩
  · rw [addToType_skip ct bs t htype] at hb
    exact hbs b hb

theorem foldl_addToType_pos (ct : String) (ts : List Transaction) (bs : List TypeBucket)
    (hts : ∀ t ∈ ts, ∃ q : ℚ, t.amount = some q ∧ 0 < q)
    (hbs : ∀ b ∈ bs, ∃ q : ℚ, b.value = .num q ∧ 0 < q) :
    ∀ b ∈ ts.foldl (addToType ct) bs, ∃ q : ℚ, b.value = .num q ∧ 0 < q := by
  induction ts generalizing bs with
  | nil => exact hbs
  | cons t ts ih =>
    exact ih _ (fun t' ht' => hts t' (List.mem_cons_of_mem _ ht'))
      (addToType_pos ct bs t (hts t (List.mem_cons_self t ts)) hbs)

theorem applyTxBar_name (t : Transaction) (b : BarBucket) :
    (applyTxBar t b).name = b.name := by
  unfold applyTxBar
  by_cases h : t.type = "income" <;> simp [h]

/-- Applying a transaction with a positive numeric amount to a bar bucket
whose income/expense are non-negative numbers keeps them non-negative numbers
and makes at least one of them strictly positive. -/
theorem applyTxBar_spec (t : Transaction) (b : BarBucket) (q : ℚ)
    (hq : t.amount = some q) (hq0 : 0 < q)
    (hbi : ∃ qi : ℚ, b.income = .num qi ∧ 0 ≤ qi)
    (hbe : ∃ qe : ℚ, b.expense = .num qe ∧ 0 ≤ qe) :
    (∃ qi : ℚ, (applyTxBar t b).income = .num qi ∧ 0 ≤ qi)
    ∧ (∃ qe : ℚ, (applyTxBar t b).expense = .num qe ∧ 0 ≤ qe)
    ∧ ((applyTxBar t b).income.gtZero = true ∨ (applyTxBar t b).expense.gtZero = true) := by
  obtain ⟨qi, hi, hi0⟩ := hbi
  obtain ⟨qe, he, he0⟩ := hbe
  unfold applyTxBar
  by_cases h : t.type = "income"
  · simp only [h, if_true]
    refine ⟨⟨qi + q, ?_, by linarith⟩, ⟨qe, he, he0⟩, Or.inl ?_⟩
    · rw [hq, hi]
      rfl
    · rw [show (parseFloat t.amount) = JsNum.num q by rw [hq]; rfl] at *
      rw [hi]
      simp only [JsNum.add, JsNum.gtZero]
      simp
      linarith
  · simp only [h, if_false]
    refine ⟨⟨qi, hi, hi0⟩, ⟨qe + q, ?_, by linarith⟩, Or.inr ?_⟩
    · rw [hq, he]
      rfl
    · rw [show (parseFloat t.amount) = JsNum.num q by rw [hq]; rfl] at *
      rw [he]
      simp only [JsNum.add, JsNum.gtZero]
      simp
      linarith

/-- Invariant of the bar-chart accumulator: the display name is the truncated
key and income/expense are non-negative numbers. -/
def barNN (p : String × BarBucket) : Prop :=
  p.2.name = truncName p.1
  ∧ (∃ qi : ℚ, p.2.income = .num qi ∧ 0 ≤ qi)
  ∧ (∃ qe : ℚ, p.2.expense = .num qe ∧ 0 ≤ qe)

/-- The entry for key `k` exists, carries the truncated display name, obeys
the non-negativity invariant, and has a strictly positive side. -/
def barKeyHit (k : String) (p : String × BarBucket) : Prop :=
  p.1 = k ∧ barNN p
  ∧ (p.2.income.gtZero = true ∨ p.2.expense.gtZero = true)

theorem addToBar_none (bs : List (String × BarBucket)) (t : Transaction)
    (hc : t.categories = none) : addToBar bs t = bs := by
  unfold addToBar
  rw [hc]

theorem addToBar_some (bs : List (String × BarBucket)) (t : Transaction) (c : Category)
    (hc : t.categories = some c) :
    addToBar bs t =
      if bs.any (fun p => p.1 == bucketKey c) then
        updateFirstBy (fun p => p.1 == bucketKey c) (fun p => (p.1, applyTxBar t p.2)) bs
      else
        bs ++ [(bucketKey c, applyTxBar t
          { name := truncName (bucketKey c), income := .num 0, expense := .num 0,
            net := .num 0 })] := by
  unfold addToBar
  rw [hc]

theorem addToBar_nn (bs : List (String × BarBucket)) (t : Transaction)
    (ht : ∃ q : ℚ, t.amount = some q ∧ 0 < q)
    (hbs : ∀ p ∈ bs, barNN p) : ∀ p ∈ addToBar bs t, barNN p := by
  obtain ⟨q, hq, hq0⟩ := ht
  intro p hp
  cases hc : t.categories with
  | none =>
    rw [addToBar_none bs t hc] at hp
    exact hbs p hp
  | some c =>
    rw [addToBar_some bs t c hc] at hp
    split at hp
    · rcases mem_updateFirstBy hp with h1 | ⟨p₀, hp₀, rfl⟩
      · exact hbs p h1
      · have h₀ := hbs p₀ hp₀
        have hs := applyTxBar_spec t p₀.2 q hq hq0 h₀.2.1 h₀.2.2
        refine ⟨?_, hs.1, hs.2.1⟩
        show (applyTxBar t p₀.2).name = truncName p₀.1
        rw [applyTxBar_name]
        exact h₀.1
    · rcases List.mem_append.mp hp with h1 | h1
      · exact hbs p h1
      · rw [List.mem_singleton.mp h1]
        have hs := applyTxBar_spec t
          { name := truncName (bucketKey c), income := .num 0, expense := .num 0,
            net := .num 0 } q hq hq0 ⟨0, rfl, le_refl 0⟩ ⟨0, rfl, le_refl 0⟩
        refine ⟨?_, hs.1, hs.2.1⟩
        show (applyTxBar t _).name = truncName (bucketKey c)
        rw [applyTxBar_name]

theorem foldl_addToBar_nn (ts : List Transaction) (bs : List (String × BarBucket))
    (hts : ∀ t ∈ ts, ∃ q : ℚ, t.amount = some q ∧ 0 < q)
    (hbs : ∀ p ∈ bs, barNN p) : ∀ p ∈ ts.foldl addToBar bs, barNN p := by
  induction ts generalizing bs with
  | nil => exact hbs
  | cons t ts ih =>
    exact ih _ (fun t' ht' => hts t' (List.mem_cons_of_mem _ ht'))
      (addToBar_nn bs t (hts t (List.mem_cons_self t ts)) hbs)

theorem addToBar_establishes (bs : List (String × BarBucket)) (t : Transaction)
    (c : Category) (hc : t.categories = some c)
    (hamt : ∃ q : ℚ, t.amount = some q ∧ 0 < q)
    (hbs : ∀ p ∈ bs, barNN p) :
    ∃ p ∈ addToBar bs t, barKeyHit (bucketKey c) p := by
  obtain ⟨q, hq, hq0⟩ := hamt
  rw [addToBar_some bs t c hc]
  split
  · next hany =>
    obtain ⟨x, hx, hxl, hxf⟩ := updateFirstBy_exists hany
    have hx1 : x.1 = bucketKey c := by simpa using hx
    have h₀ := hbs x hxl
    have hs := applyTxBar_spec t x.2 q hq hq0 h₀.2.1 h₀.2.2
    refine ⟨(x.1, applyTxBar t x.2), hxf, hx1, ⟨?_, hs.1, hs.2.1⟩, hs.2.2⟩
    show (applyTxBar t x.2).name = truncName x.1
    rw [applyTxBar_name]
    exact h₀.1
  · have hs := applyTxBar_spec t
      { name := truncName (bucketKey c), income := .num 0, expense := .num 0,
        net := .num 0 } q hq hq0 ⟨0, rfl, le_refl 0⟩ ⟨0, rfl, le_refl 0⟩
    refine ⟨_, List.mem_append.mpr (Or.inr (List.mem_singleton.mpr rfl)),
      rfl, ⟨?_, hs.1, hs.2.1⟩, hs.2.2⟩
    show (applyTxBar t _).name = truncName (bucketKey c)
    rw [applyTxBar_name]

theorem addToBar_preserves_keyHit (bs : List (String × BarBucket)) (t : Transaction)
    (k : String) (hamt : ∃ q : ℚ, t.amount = some q ∧ 0 < q)
    (h : ∃ p ∈ bs, barKeyHit k p) :
    ∃ p ∈ addToBar bs t, barKeyHit k p := by
  obtain ⟨q, hq, hq0⟩ := hamt
  obtain ⟨p₀, hp₀, hP⟩ := h
  cases hc : t.categories with
  | none =>
    rw [addToBar_none bs t hc]
    exact ⟨p₀, hp₀, hP⟩
  | some c =>
    rw [addToBar_some bs t c hc]
    split
    · refine updateFirstBy_preserves (barKeyHit k) ?_ hp₀ hP
      intro x hx
      have hs := applyTxBar_spec t x.2 q hq hq0 hx.2.1.2.1 hx.2.1.2.2
      refine ⟨hx.1, ⟨?_, hs.1, hs.2.1⟩, hs.2.2⟩
      show (applyTxBar t x.2).name = truncName x.1
      rw [applyTxBar_name]
      exact hx.2.1.1
    · exact ⟨p₀, List.mem_append.mpr (Or.inl hp₀), hP⟩

theorem foldl_addToBar_preserves_keyHit (ts : List Transaction)
    (bs : List (String × BarBucket)) (k : String)
    (hts : ∀ t ∈ ts, ∃ q : ℚ, t.amount = some q ∧ 0 < q)
    (h : ∃ p ∈ bs, barKeyHit k p) :
    ∃ p ∈ ts.foldl addToBar bs, barKeyHit k p := by
  induction ts generalizing bs with
  | nil => exact h
  | cons t ts ih =>
    exact ih _ (fun t' ht' => hts t' (List.mem_cons_of_mem _ ht'))
      (addToBar_preserves_keyHit bs t k (hts t (List.mem_cons_self t ts)) h)

theorem foldl_addToBar_keyHit_of_mem (ts : List Transaction)
    (bs : List (String × BarBucket)) (t : Transaction) (c : Category)
    (ht : t ∈ ts) (hc : t.categories = some c)
    (hts : ∀ t' ∈ ts, ∃ q : ℚ, t'.amount = some q ∧ 0 < q)
    (hbs : ∀ p ∈ bs, barNN p) :
    ∃ p ∈ ts.foldl addToBar bs, barKeyHit (bucketKey c) p := by
  induction ts generalizing bs with
  | nil => cases ht
  | cons hd tl ih =>
    rcases List.mem_cons.mp ht with rfl | hm
    · exact foldl_addToBar_preserves_keyHit tl _ _
        (fun t' ht' => hts t' (List.mem_cons_of_mem _ ht'))
        (addToBar_establishes bs t c hc (hts t (List.mem_cons_self t tl)) hbs)
    · exact ih _ hm (fun t' ht' => hts t' (List.mem_cons_of_mem _ ht'))
        (addToBar_nn bs hd (hts hd (List.mem_cons_self hd tl)) hbs)

/-- Claim C3 fails on the code: a transaction with no category association at
all (`categories` null) is skipped by `if (transaction.categories)` in all
three computations, so it never reaches any bucket — in particular no
"Uncategorized" bucket is produced for it. -/
theorem C3_counterexample :
    ¬ ((∃ e ∈ getCombinedPieChartData
          [{ type := "expense", amount := some 100, categories := none }],
          e.name = "Uncategorized")
       ∨ (∃ b ∈ getTypePieChartData
            [{ type := "expense", amount := some 100, categories := none }] "expense" false,
            b.name = "Uncategorized")
       ∨ (∃ b ∈ getBarChartData
            [{ type := "expense", amount := some 100, categories := none }],
            b.name = "Uncategorized")) := by
  decide

/-- Claim C3 (amended): the "Uncategorized" label is applied only to
transactions that do carry a joined category record whose name is missing:
for such a transaction (with positive numeric amounts throughout the list so
that the `> 0` filters keep the bucket) a bucket named exactly "Uncategorized"
with its count and amount accumulated appears in the combined output, in the
single-type buckets of the transaction's type (before the "Other" merge), and
in the by-net ranking (before the top-8 cut).  Transactions whose `categories`
join is null are excluded from all three computations. -/
theorem C3_amended (ts : List Transaction) (t : Transaction) (c : Category)
    (ht : t ∈ ts) (hc : t.categories = some c) (hn : c.name = none)
    (hpos : ∀ t' ∈ ts, ∃ q : ℚ, t'.amount = some q ∧ 0 < q) :
    (∃ e ∈ getCombinedPieChartData ts, e.name = "Uncategorized" ∧ 1 ≤ e.count)
    ∧ (∃ b ∈ typePieSorted ts t.type, b.name = "Uncategorized" ∧ 1 ≤ b.count)
    ∧ (∃ b ∈ barChartRanked ts, b.name = "Uncategorized") := by
  have hkeyU : bucketKey c = "Uncategorized" := by
    unfold bucketKey
    rw [hn]
    rfl
  refine ⟨?_, ?_, ?_⟩
  · obtain ⟨b, hb, hbname, hbcount⟩ := foldl_addToCombined_key_of_mem ts [] t c ht hc
    obtain ⟨q, hqt, hq0⟩ := foldl_addToCombined_pos ts [] hpos (by simp) b hb
    refine ⟨toPieEntry b, ?_, ?_, ?_⟩
    · unfold getCombinedPieChartData
      rw [mem_sortByDesc]
      exact List.mem_map_of_mem toPieEntry
        (List.mem_filter.mpr ⟨hb, by simp [JsNum.gtZero, hqt, hq0]⟩)
    · show b.name = "Uncategorized"
      rw [hbname, hkeyU]
    · exact hbcount
  · obtain ⟨b, hb, hbname, hbcount⟩ :=
      foldl_addToType_key_of_mem t.type ts [] t c ht hc rfl
    obtain ⟨q, hqt, hq0⟩ := foldl_addToType_pos t.type ts [] hpos (by simp) b hb
    refine ⟨b, ?_, ?_, hbcount⟩
    · unfold typePieSorted
      rw [mem_sortByDesc]
      exact List.mem_filter.mpr ⟨hb, by simp [JsNum.gtZero, hqt, hq0]⟩
    · rw [hbname, hkeyU]
  · obtain ⟨p, hp, hp1, hpNN, hdisj⟩ :=
      foldl_addToBar_keyHit_of_mem ts [] t c ht hc hpos (by simp)
    refine ⟨p.2, ?_, ?_⟩
    · unfold barChartRanked
      rw [mem_sortByDesc]
      refine List.mem_filter.mpr ⟨List.mem_map_of_mem Prod.snd hp, ?_⟩
      simp only [Bool.or_eq_true]
      exact hdisj
    · rw [hpNN.1, hp1, hkeyU]
      decide

theorem C3_amended_witness :
    (∃ e ∈ getCombinedPieChartData
        [{ type := "expense", amount := some 100,
           categories := some { name := none, color := none } }],
        e.name = "Uncategorized" ∧ 1 ≤ e.count)
    ∧ (∃ b ∈ typePieSorted
          [{ type := "expense", amount := some 100,
             categories := some { name := none, color := none } }] "expense",
        b.name = "Uncategorized" ∧ 1 ≤ b.count)
    ∧ (∃ b ∈ barChartRanked
          [{ type := "expense", amount := some 100,
             categories := some { name := none, color := none } }],
        b.name = "Uncategorized") := by
  apply C3_amended
    [{ type := "expense", amount := some 100,
       categories := some { name := none, color := none } }]
    { type := "expense", amount := some 100,
      categories := some { name := none, color := none } }
    { name := none, color := none }
    (by decide) rfl rfl
  intro t' ht'
  fin_cases ht'
  exact ⟨100, rfl, by norm_num⟩

theorem foldl_count_eq_sum (l : List TypeBucket) (n : ℕ) :
    l.foldl (fun s b => s + b.count) n = n + (l.map (fun b => b.count)).sum := by
  induction l generalizing n with
  | nil => simp
  | cons x xs ih =>
    simp only [List.foldl_cons, List.map_cons, List.sum_cons, ih]
    omega

/-- Claim C6: with 10 single-type (income) buckets on a non-small screen the
output has exactly 8 entries — the top 7 by descending value followed by a
synthetic "Other" bucket whose value is the sum of the values of the
8th-through-10th-ranked buckets and whose count is the sum of their counts —
and in general no merge happens while the bucket count stays within the
display threshold (small screen: 5, otherwise 8). -/
theorem C6_other_merge (ts : List Transaction)
    (hlen : (typePieSorted ts "income").length = 10) :
    (getTypePieChartData ts "income" false).length = 8
    ∧ getTypePieChartData ts "income" false
        = (typePieSorted ts "income").take 7
          ++ [mkOtherBucket "income" ((typePieSorted ts "income").drop 7)]
    ∧ (mkOtherBucket "income" ((typePieSorted ts "income").drop 7)).name = "Other"
    ∧ (mkOtherBucket "income" ((typePieSorted ts "income").drop 7)).value
        = jsSumList (((typePieSorted ts "income").drop 7).map (fun b => b.value))
    ∧ (mkOtherBucket "income" ((typePieSorted ts "income").drop 7)).count
        = (((typePieSorted ts "income").drop 7).map (fun b => b.count)).sum
    ∧ ∀ (ts' : List Transaction) (ct : String) (mobile : Bool),
        (typePieSorted ts' ct).length ≤ (if mobile then 5 else 8) →
        getTypePieChartData ts' ct mobile = typePieSorted ts' ct := by
  have hmerge : getTypePieChartData ts "income" false
      = (typePieSorted ts "income").take 7
        ++ [mkOtherBucket "income" ((typePieSorted ts "income").drop 7)] := by
    simp [getTypePieChartData, hlen]
  refine ⟨?_, hmerge, rfl, ?_, ?_, ?_⟩
  · rw [hmerge]
    simp [List.length_take, hlen]
  · show (((typePieSorted ts "income").drop 7).foldl (fun s b => s.add b.value) (.num 0))
      = jsSumList (((typePieSorted ts "income").drop 7).map (fun b => b.value))
    rw [jsSumList, List.foldl_map]
  · show (((typePieSorted ts "income").drop 7).foldl (fun s b => s + b.count) 0)
      = (((typePieSorted ts "income").drop 7).map (fun b => b.count)).sum
    rw [foldl_count_eq_sum]
    omega
  · intro ts' ct mobile hle
    simp only [getTypePieChartData]
    rw [if_neg (Nat.not_lt.mpr hle)]

/-- The 10-category income scenario of the "Other"-merge property. -/
def c6Demo : List Transaction :=
  [{ type := "income", amount := some 10,
     categories := some { name := some "C0", color := some "#000000" } },
   { type := "income", amount := some 9,
     categories := some { name := some "C1", color := some "#000001" } },
   { type := "income", amount := some 8,
     categories := some { name := some "C2", color := some "#000002" } },
   { type := "income", amount := some 7,
     categories := some { name := some "C3", color := some "#000003" } },
   { type := "income", amount := some 6,
     categories := some { name := some "C4", color := some "#000004" } },
   { type := "income", amount := some 5,
     categories := some { name := some "C5", color := some "#000005" } },
   { type := "income", amount := some 4,
     categories := some { name := some "C6", color := some "#000006" } },
   { type := "income", amount := some 3,
     categories := some { name := some "C7", color := some "#000007" } },
   { type := "income", amount := some 2,
     categories := some { name := some "C8", color := some "#000008" } },
   { type := "income", amount := some 1,
     categories := some { name := some "C9", color := some "#000009" } }]

theorem c6Demo_pos : ∀ t' ∈ c6Demo, ∃ q : ℚ, t'.amount = some q ∧ 0 < q := by
  intro t' ht'
  fin_cases ht' <;> exact ⟨_, rfl, by norm_num⟩

theorem c6Demo_len : (typePieSorted c6Demo "income").length = 10 := by
  unfold typePieSorted
  rw [length_sortByDesc]
  rw [List.filter_eq_self.mpr]
  · decide
  · intro b hb
    obtain ⟨q, hq, hq0⟩ := foldl_addToType_pos "income" c6Demo [] c6Demo_pos (by simp) b hb
    simp [JsNum.gtZero, hq, hq0]

theorem C6_other_merge_witness :
    (getTypePieChartData c6Demo "income" false).length = 8 :=
  (C6_other_merge c6Demo c6Demo_len).1

/-- A date range as held in `dateRange` / `tempDateRange` (the source field
`end` is a reserved word in Lean, hence `stop`). -/
structure DateRange where
  start : String
  stop : String
deriving DecidableEq

/-- The range key `` `${startDate}-${endDate}` `` stored in `lastFetchRef`
(Reports.jsx lines 96, 111). -/
def fetchKey (startDate endDate : String) : String := startDate ++ "-" ++ endDate

/-- Possible outcomes of the awaited remote read inside `fetchData`:
`success rows` — the query resolved with `data = rows`;
`errorResult` — the query resolved with an error, in which case the supabase
client returns `data = null` (no exception is thrown);
`thrown` — an exception was thrown during the awaits (e.g. `user` is null and
`user.id` throws) and the `catch` block runs. -/
inductive FetchOutcome where
  | success (rows : List Transaction)
  | errorResult
  | thrown
deriving DecidableEq

/-- The component state touched by the fetch coordination of Reports.jsx:
the displayed `transactions`, the `loading` flag, `lastFetchRef.current`,
the armed debounce timer `fetchRef` together with the range it will fetch
(`pending`), and the committed/tentative ranges. -/
structure RState where
  transactions : List Transaction
  loading : Bool
  lastFetch : String
  pending : Option DateRange
  dateRange : DateRange
  tempDateRange : DateRange
deriving DecidableEq

/-- `fetchData(startDate, endDate)` (Reports.jsx lines 81-102) at the given
outcome: on success `setTransactions(data || [])` stores the rows and
`lastFetchRef` records the key; on an error result `data` is null, so the
displayed list is set to `[]` and `lastFetchRef` still records the key; on a
thrown exception the `catch` only logs, leaving both untouched.  `finally`
clears `loading`. -/
def fetchData (startDate endDate : String) (o : FetchOutcome) (s : RState) : RState :=
  match o with
  | .success rows =>
    { s with transactions := rows, lastFetch := fetchKey startDate endDate, loading := false }
  | .errorResult =>
    { s with transactions := [], lastFetch := fetchKey startDate endDate, loading := false }
  | .thrown => { s with loading := false }

/-- Events driving the coordinator: `commit r` — `dateRange` is set to `r`
(Apply or Reset), so the debounced-fetch effect (lines 110-130) re-runs after
its cleanup cleared any armed timer; `fire o` — the 800 ms debounce timer
elapses and the scheduled `fetchData` runs with outcome `o`. -/
inductive Event where
  | commit (r : DateRange)
  | fire (o : FetchOutcome)
deriving DecidableEq

/-- One step of the coordinator; the second component lists the fetches
issued by the step (the ranges passed to `fetchData`). -/
def step (s : RState) : Event → RState × List DateRange
  | .commit r =>
    let s' := { s with dateRange := r, pending := none }
    if s'.lastFetch = fetchKey r.start r.stop then (s', [])
    else ({ s' with pending := some r }, [])
  | .fire o =>
    match s.pending with
    | some r => ({ fetchData r.start r.stop o s with pending := none }, [r])
    | none => (s, [])

/-- Run a sequence of events, collecting all issued fetches. -/
def run (s : RState) : List Event → RState × List DateRange
  | [] => (s, [])
  | e :: es =>
    let p := step s e
    let p' := run p.1 es
    (p'.1, p.2 ++ p'.2)

/-- `applyDateFilter` (lines 175-178): a commit of the tentative range,
guarded against empty fields. -/
def applyDateFilter (s : RState) : RState × List DateRange :=
  if s.tempDateRange.start = "" ∨ s.tempDateRange.stop = "" then (s, [])
  else step s (.commit s.tempDateRange)

/-- `resetToCurrentMonth` (lines 180-191): set both the tentative and the
committed range to `cur` (the `[first day of current month, today]` range
computed from the clock, passed here as a parameter); the `dateRange` update
re-runs the debounced-fetch effect. -/
def resetToCurrentMonth (cur : DateRange) (s : RState) : RState × List DateRange :=
  step { s with tempDateRange := cur } (.commit cur)

/-- Claim C2 fails on the code: when the remote read resolves with an error
(no exception), `data` is null, so `setTransactions(data || [])` clears the
previously displayed list, and `lastFetchRef` is set to the failed range's
key, so re-committing the very same range is suppressed — no retry fetch is
issued even after the debounce period. -/
theorem C2_counterexample :
    (fetchData "2025-01-01" "2025-01-31" FetchOutcome.errorResult
        { transactions := [{ type := "income", amount := some 5, categories := none }],
          loading := false, lastFetch := "", pending := none,
          dateRange := { start := "a", stop := "b" },
          tempDateRange := { start := "a", stop := "b" } }).transactions
      ≠ ({ transactions := [{ type := "income", amount := some 5, categories := none }],
           loading := false, lastFetch := "", pending := none,
           dateRange := { start := "a", stop := "b" },
           tempDateRange := { start := "a", stop := "b" } } : RState).transactions
    ∧ (run (fetchData "2025-01-01" "2025-01-31" FetchOutcome.errorResult
          { transactions := [{ type := "income", amount := some 5, categories := none }],
            loading := false, lastFetch := "", pending := none,
            dateRange := { start := "a", stop := "b" },
            tempDateRange := { start := "a", stop := "b" } })
        [Event.commit { start := "2025-01-01", stop := "2025-01-31" },
         Event.fire (FetchOutcome.success [])]).2 = [] := by
  constructor
  · decide
  · decide

/-- Claim C2 (amended): only a fetch failure that throws is recovered as the
spec describes — the displayed list and the last-fetched key are left
untouched (and loading is cleared), so committing the same range again arms
the debounce timer and its expiry issues a new fetch for that range.  A
failure reported as an error result instead clears the displayed list and
records the range as fetched, suppressing the retry. -/
theorem C2_amended (s : RState) (r : DateRange) (o : FetchOutcome)
    (h : ¬ s.lastFetch = fetchKey r.start r.stop) :
    (fetchData r.start r.stop FetchOutcome.thrown s).transactions = s.transactions
    ∧ (fetchData r.start r.stop FetchOutcome.thrown s).lastFetch = s.lastFetch
    ∧ (fetchData r.start r.stop FetchOutcome.thrown s).loading = false
    ∧ (run (fetchData r.start r.stop FetchOutcome.thrown s)
        [Event.commit r, Event.fire o]).2 = [r]
    ∧ (fetchData r.start r.stop FetchOutcome.errorResult s).transactions = []
    ∧ (fetchData r.start r.stop FetchOutcome.errorResult s).lastFetch
        = fetchKey r.start r.stop := by
  refine ⟨rfl, rfl, rfl, ?_, rfl, rfl⟩
  simp only [run, step, fetchData]
  rw [if_neg h]
  rfl

theorem C2_amended_witness :
    (run (fetchData "2025-01-01" "2025-01-31" FetchOutcome.thrown
        { transactions := [], loading := false, lastFetch := "", pending := none,
          dateRange := { start := "a", stop := "b" },
          tempDateRange := { start := "a", stop := "b" } })
      [Event.commit { start := "2025-01-01", stop := "2025-01-31" },
       Event.fire (FetchOutcome.success [])]).2
      = [{ start := "2025-01-01", stop := "2025-01-31" }] :=
  (C2_amended
    { transactions := [], loading := false, lastFetch := "", pending := none,
      dateRange := { start := "a", stop := "b" },
      tempDateRange := { start := "a", stop := "b" } }
    { start := "2025-01-01", stop := "2025-01-31" }
    (FetchOutcome.success []) (by decide)).2.2.2.1

/-- Claim C5: committing a range whose key equals the last-fetched key issues
no fetch (even after the quiet period elapses — any armed timer is cleared
and none is re-armed); and three commits within the quiet period (no timer
expiry between them) followed by the timer expiry issue exactly one fetch,
for the value of the last commit. -/
theorem step_commit_issued (s : RState) (r : DateRange) :
    (step s (Event.commit r)).2 = [] := by
  simp only [step]
  split <;> rfl

theorem step_commit_lastFetch (s : RState) (r : DateRange) :
    (step s (Event.commit r)).1.lastFetch = s.lastFetch := by
  simp only [step]
  split <;> rfl

theorem step_commit_dateRange (s : RState) (r : DateRange) :
    (step s (Event.commit r)).1.dateRange = r := by
  simp only [step]
  split <;> rfl

theorem step_commit_tempDateRange (s : RState) (r : DateRange) :
    (step s (Event.commit r)).1.tempDateRange = s.tempDateRange := by
  simp only [step]
  split <;> rfl

theorem step_commit_pending_of_ne (s : RState) (r : DateRange)
    (h : ¬ s.lastFetch = fetchKey r.start r.stop) :
    (step s (Event.commit r)).1.pending = some r := by
  simp only [step]
  rw [if_neg h]

theorem step_commit_pending_of_eq (s : RState) (r : DateRange)
    (h : s.lastFetch = fetchKey r.start r.stop) :
    (step s (Event.commit r)).1.pending = none := by
  simp only [step]
  rw [if_pos h]

theorem step_fire_of_pending (s : RState) (r : DateRange) (o : FetchOutcome)
    (h : s.pending = some r) : (step s (Event.fire o)).2 = [r] := by
  simp only [step, h]

theorem step_fire_of_none (s : RState) (o : FetchOutcome)
    (h : s.pending = none) : (step s (Event.fire o)).2 = [] := by
  simp only [step, h]

theorem C5_debounce (s : RState) (r r1 r2 r3 : DateRange) (o o' : FetchOutcome)
    (h : s.lastFetch = fetchKey r.start r.stop)
    (h3 : ¬ s.lastFetch = fetchKey r3.start r3.stop) :
    (run s [Event.commit r, Event.fire o]).2 = []
    ∧ (run s [Event.commit r1, Event.commit r2, Event.commit r3, Event.fire o']).2 = [r3] := by
  constructor
  · simp only [run, step_commit_issued, List.nil_append]
    rw [step_fire_of_none _ _ (step_commit_pending_of_eq s r h)]
    rfl
  · have hp : (step ((step ((step s (Event.commit r1)).1) (Event.commit r2)).1)
        (Event.commit r3)).1.pending = some r3 := by
      apply step_commit_pending_of_ne
      rw [step_commit_lastFetch, step_commit_lastFetch]
      exact h3
    simp only [run, step_commit_issued, List.nil_append]
    rw [step_fire_of_pending _ r3 _ hp]
    rfl

theorem C5_debounce_witness :
    (run { transactions := [], loading := false, lastFetch := "2025-01-01-2025-01-31",
           pending := none, dateRange := { start := "2025-01-01", stop := "2025-01-31" },
           tempDateRange := { start := "2025-01-01", stop := "2025-01-31" } }
        [Event.commit { start := "2025-01-01", stop := "2025-01-31" },
         Event.fire (FetchOutcome.success [])]).2 = []
    ∧ (run { transactions := [], loading := false, lastFetch := "2025-01-01-2025-01-31",
             pending := none, dateRange := { start := "2025-01-01", stop := "2025-01-31" },
             tempDateRange := { start := "2025-01-01", stop := "2025-01-31" } }
        [Event.commit { start := "2025-02-01", stop := "2025-02-03" },
         Event.commit { start := "2025-02-01", stop := "2025-02-10" },
         Event.commit { start := "2025-02-01", stop := "2025-02-14" },
         Event.fire (FetchOutcome.success [])]).2
      = [{ start := "2025-02-01", stop := "2025-02-14" }] :=
  C5_debounce
    { transactions := [], loading := false, lastFetch := "2025-01-01-2025-01-31",
      pending := none, dateRange := { start := "2025-01-01", stop := "2025-01-31" },
      tempDateRange := { start := "2025-01-01", stop := "2025-01-31" } }
    { start := "2025-01-01", stop := "2025-01-31" }
    { start := "2025-02-01", stop := "2025-02-03" }
    { start := "2025-02-01", stop := "2025-02-10" }
    { start := "2025-02-01", stop := "2025-02-14" }
    (FetchOutcome.success []) (FetchOutcome.success [])
    (by decide) (by decide)

/-- Claim C9 fails on the code: when the last fetch was already for the
current-month range (e.g. right after the initial load), pressing reset sets
the ranges but the effect's `lastFetchRef` comparison suppresses the fetch —
zero fetches are issued, not exactly one, even after the debounce period. -/
theorem C9_counterexample :
    ¬ (((resetToCurrentMonth { start := "2025-10-01", stop := "2025-10-12" }
          { transactions := [], loading := false,
            lastFetch := "2025-10-01-2025-10-12", pending := none,
            dateRange := { start := "2025-10-01", stop := "2025-10-12" },
            tempDateRange := { start := "2025-10-01", stop := "2025-10-12" } }).2
        ++ (run (resetToCurrentMonth { start := "2025-10-01", stop := "2025-10-12" }
              { transactions := [], loading := false,
                lastFetch := "2025-10-01-2025-10-12", pending := none,
                dateRange := { start := "2025-10-01", stop := "2025-10-12" },
                tempDateRange := { start := "2025-10-01", stop := "2025-10-12" } }).1
            [Event.fire (FetchOutcome.success [])]).2).length = 1) := by
  decide

/-- Claim C9 (amended): reset always sets both the tentative and the
committed range to the current-month range `cur`; it issues no fetch
directly, and the debounce expiry then issues exactly one fetch for `cur` —
provided `cur`'s key differs from the last-fetched key.  When the last fetch
was already for `cur`, no fetch at all is issued. -/
theorem C9_amended (s s2 : RState) (cur : DateRange) (o o2 : FetchOutcome)
    (h : ¬ s.lastFetch = fetchKey cur.start cur.stop)
    (h2 : s2.lastFetch = fetchKey cur.start cur.stop) :
    (resetToCurrentMonth cur s).1.tempDateRange = cur
    ∧ (resetToCurrentMonth cur s).1.dateRange = cur
    ∧ (resetToCurrentMonth cur s).2 = []
    ∧ (run (resetToCurrentMonth cur s).1 [Event.fire o]).2 = [cur]
    ∧ (resetToCurrentMonth cur s2).1.tempDateRange = cur
    ∧ (resetToCurrentMonth cur s2).1.dateRange = cur
    ∧ ((resetToCurrentMonth cur s2).2
        ++ (run (resetToCurrentMonth cur s2).1 [Event.fire o2]).2) = [] := by
  refine ⟨?_, ?_, ?_, ?_, ?_, ?_, ?_⟩
  · simp only [resetToCurrentMonth]
    rw [step_commit_tempDateRange]
  · simp only [resetToCurrentMonth]
    rw [step_commit_dateRange]
  · simp only [resetToCurrentMonth]
    rw [step_commit_issued]
  · simp only [resetToCurrentMonth, run]
    rw [step_fire_of_pending _ cur _
      (step_commit_pending_of_ne { s with tempDateRange := cur } cur h)]
    rfl
  · simp only [resetToCurrentMonth]
    rw [step_commit_tempDateRange]
  · simp only [resetToCurrentMonth]
    rw [step_commit_dateRange]
  · simp only [resetToCurrentMonth, run]
    rw [step_commit_issued, step_fire_of_none _ _
      (step_commit_pending_of_eq { s2 with tempDateRange := cur } cur h2)]
    rfl

theorem C9_amended_witness :
    (run (resetToCurrentMonth { start := "2025-10-01", stop := "2025-10-12" }
        { transactions := [], loading := false, lastFetch := "", pending := none,
          dateRange := { start := "a", stop := "b" },
          tempDateRange := { start := "a", stop := "b" } }).1
      [Event.fire (FetchOutcome.success [])]).2
      = [{ start := "2025-10-01", stop := "2025-10-12" }] :=
  (C9_amended
    { transactions := [], loading := false, lastFetch := "", pending := none,
      dateRange := { start := "a", stop := "b" },
      tempDateRange := { start := "a", stop := "b" } }
    { transactions := [], loading := false, lastFetch := "2025-10-01-2025-10-12",
      pending := none, dateRange := { start := "a", stop := "b" },
      tempDateRange := { start := "a", stop := "b" } }
    { start := "2025-10-01", stop := "2025-10-12" }
    (FetchOutcome.success []) (FetchOutcome.success [])
    (by decide) (by decide)).2.2.2.1
